import Mathlib

/-
Verification of the dto-builder library: a shallow embedding of the value
model, the deep-clone utility (src/lib/deep-clone.ts), the functional
builder (src/lib/dto-builder.ts), the class-based builder variant, the
validation-failure exception and the proxy member resolver, together with
theorems settling the specification claims.

JavaScript object identity is modelled by tagging every mutable container
(plain record, array, set, map, date, regexp) and every function with a
numeric id: two container values denote the same heap object exactly when
they carry the same id.  Operations that allocate a container take the
fresh id explicitly or thread a fresh-id counter.
-/

/-- Immutable JavaScript primitives. `null` is a primitive, but note that
in JavaScript `typeof null === 'object'`. -/
inductive Prim where
  | null
  | undef
  | bool (b : Bool)
  | num (n : Int)
  | str (s : String)
deriving DecidableEq

/-- A JavaScript value graph. Mutable containers and functions carry an id
modelling their heap identity. -/
inductive Value where
  | prim (p : Prim)
  | func (id : Nat)
  | date (id : Nat) (time : Int)
  | regexp (id : Nat) (src : String) (flags : String)
  | arr (id : Nat) (items : List Value)
  | set (id : Nat) (items : List Value)
  | vmap (id : Nat) (entries : List (Value × Value))
  | obj (id : Nat) (fields : List (String × Value))

/-- Whether `typeof v === 'object'` in JavaScript: true for every container
and for `null`, false for the remaining primitives and for functions
(whose typeof is 'function'). -/
def typeofObject : Value → Bool
  | .prim .null => true
  | .prim _ => false
  | .func _ => false
  | _ => true

/-- Whether `typeof v === 'function'`. -/
def typeofFunction : Value → Bool
  | .func _ => true
  | _ => false

mutual
/-- Embedding of `deepClone` from src/lib/deep-clone.ts, threading a
fresh-id counter for the containers the clone allocates.  The branch order
follows the source: Date, RegExp, Array, Set, Map, `typeof === 'object'`
(which also catches `null`, cloned to an empty record because `for..in`
over `null` yields nothing), and a final catch-all returning the input
as-is (remaining primitives and functions).  `none` models the thrown
`TypeError('Cannot clone DTO with functions')`. -/
def deepClone : Value → Nat → Option (Value × Nat)
  | .date _ t, n => some (.date n t, n + 1)
  | .regexp _ s f, n => some (.regexp n s f, n + 1)
  | .arr _ items, n =>
      match deepCloneItems items (n + 1) with
      | some (its, n1) => some (.arr n its, n1)
      | none => none
  | .set _ items, n =>
      match deepCloneItems items (n + 1) with
      | some (its, n1) => some (.set n its, n1)
      | none => none
  | .vmap _ entries, n =>
      match deepCloneEntries entries (n + 1) with
      | some (es, n1) => some (.vmap n es, n1)
      | none => none
  | .obj _ fields, n =>
      match deepCloneFields fields (n + 1) with
      | some (fs, n1) => some (.obj n fs, n1)
      | none => none
  | .prim .null, n => some (.obj n [], n + 1)
  | v, n => some (v, n)

/-- Array and Set elements: cloned only when `typeof item === 'object'`;
other items (primitives and functions) are copied by reference. -/
def deepCloneItems : List Value → Nat → Option (List Value × Nat)
  | [], n => some ([], n)
  | v :: vs, n =>
      match (if typeofObject v then deepClone v n else some (v, n)) with
      | some (v1, n1) =>
          match deepCloneItems vs n1 with
          | some (vs1, n2) => some (v1 :: vs1, n2)
          | none => none
      | none => none

/-- Map entries: the key is copied by reference, the value is cloned only
when `typeof mapValue === 'object'`. -/
def deepCloneEntries : List (Value × Value) → Nat → Option (List (Value × Value) × Nat)
  | [], n => some ([], n)
  | (k, v) :: es, n =>
      match (if typeofObject v then deepClone v n else some (v, n)) with
      | some (v1, n1) =>
          match deepCloneEntries es n1 with
          | some (es1, n2) => some ((k, v1) :: es1, n2)
          | none => none
      | none => none

/-- Plain-record fields: a function value raises the TypeError; an
object-typed value is cloned; the rest are copied. -/
def deepCloneFields : List (String × Value) → Nat → Option (List (String × Value) × Nat)
  | [], n => some ([], n)
  | (k, v) :: fs, n =>
      if typeofFunction v then none
      else
        match (if typeofObject v then deepClone v n else some (v, n)) with
        | some (v1, n1) =>
            match deepCloneFields fs n1 with
            | some (fs1, n2) => some ((k, v1) :: fs1, n2)
            | none => none
        | none => none
end

mutual
/-- Ids of all mutable containers in a value graph (functions excluded:
the spec's list of mutable nested containers is record, list, set, map,
date and pattern object). -/
def mutIds : Value → List Nat
  | .prim _ => []
  | .func _ => []
  | .date id _ => [id]
  | .regexp id _ _ => [id]
  | .arr id items => id :: mutIdsList items
  | .set id items => id :: mutIdsList items
  | .vmap id es => id :: mutIdsEntries es
  | .obj id fs => id :: mutIdsFields fs

def mutIdsList : List Value → List Nat
  | [] => []
  | v :: vs => mutIds v ++ mutIdsList vs

def mutIdsEntries : List (Value × Value) → List Nat
  | [] => []
  | (k, v) :: es => mutIds k ++ mutIds v ++ mutIdsEntries es

def mutIdsFields : List (String × Value) → List Nat
  | [] => []
  | (_, v) :: fs => mutIds v ++ mutIdsFields fs
end

mutual
/-- Container ids that sit inside map-key subtrees: these are the parts
deepClone copies by reference. -/
def keyIdsV : Value → List Nat
  | .arr _ items => keyIdsList items
  | .set _ items => keyIdsList items
  | .vmap _ es => keyIdsEntries es
  | .obj _ fs => keyIdsFields fs
  | _ => []

def keyIdsList : List Value → List Nat
  | [] => []
  | v :: vs => keyIdsV v ++ keyIdsList vs

def keyIdsEntries : List (Value × Value) → List Nat
  | [] => []
  | (k, v) :: es => mutIds k ++ keyIdsV v ++ keyIdsEntries es

def keyIdsFields : List (String × Value) → List Nat
  | [] => []
  | (_, v) :: fs => keyIdsV v ++ keyIdsFields fs
end

mutual
/-- No callable function anywhere in the value graph. -/
def funcFreeV : Value → Bool
  | .prim _ => true
  | .func _ => false
  | .date _ _ => true
  | .regexp _ _ _ => true
  | .arr _ items => funcFreeList items
  | .set _ items => funcFreeList items
  | .vmap _ es => funcFreeEntries es
  | .obj _ fs => funcFreeFields fs

def funcFreeList : List Value → Bool
  | [] => true
  | v :: vs => funcFreeV v && funcFreeList vs

def funcFreeEntries : List (Value × Value) → Bool
  | [] => true
  | (k, v) :: es => funcFreeV k && (funcFreeV v && funcFreeEntries es)

def funcFreeFields : List (String × Value) → Bool
  | [] => true
  | (_, v) :: fs => funcFreeV v && funcFreeFields fs
end

mutual
/-- No `null` anywhere in the value graph. -/
def nullFreeV : Value → Bool
  | .prim .null => false
  | .prim _ => true
  | .func _ => true
  | .date _ _ => true
  | .regexp _ _ _ => true
  | .arr _ items => nullFreeList items
  | .set _ items => nullFreeList items
  | .vmap _ es => nullFreeEntries es
  | .obj _ fs => nullFreeFields fs

def nullFreeList : List Value → Bool
  | [] => true
  | v :: vs => nullFreeV v && nullFreeList vs

def nullFreeEntries : List (Value × Value) → Bool
  | [] => true
  | (k, v) :: es => nullFreeV k && (nullFreeV v && nullFreeEntries es)

def nullFreeFields : List (String × Value) → Bool
  | [] => true
  | (_, v) :: fs => nullFreeV v && nullFreeFields fs
end

mutual
/-- Erase container and function ids, comparing value graphs structurally:
two values are value-equal in the sense of the spec exactly when their
erasures coincide. -/
def eraseIds : Value → Value
  | .prim p => .prim p
  | .func _ => .func 0
  | .date _ t => .date 0 t
  | .regexp _ s f => .regexp 0 s f
  | .arr _ items => .arr 0 (eraseList items)
  | .set _ items => .set 0 (eraseList items)
  | .vmap _ es => .vmap 0 (eraseEntries es)
  | .obj _ fs => .obj 0 (eraseFields fs)

def eraseList : List Value → List Value
  | [] => []
  | v :: vs => eraseIds v :: eraseList vs

def eraseEntries : List (Value × Value) → List (Value × Value)
  | [] => []
  | (k, v) :: es => (eraseIds k, eraseIds v) :: eraseEntries es

def eraseFields : List (String × Value) → List (String × Value)
  | [] => []
  | (k, v) :: fs => (k, eraseIds v) :: eraseFields fs
end

/-- Lookup of a field in a JavaScript record, modelled as an association
list in property insertion order. -/
def lookupRecord : List (String × Value) → String → Option Value
  | [], _ => none
  | (k1, v) :: tl, k => if k1 = k then some v else lookupRecord tl k

/-- Property assignment `rec[k] = v`: updates the binding in place when the
key exists (keeping its position), otherwise appends it, as JavaScript
records do. -/
def setKey : List (String × Value) → String → Value → List (String × Value)
  | [], k, v => [(k, v)]
  | (k1, v1) :: tl, k, v =>
      if k1 = k then (k, v) :: tl else (k1, v1) :: setKey tl k v

/-- Model of `Object.assign(dst, src)` on records: assigns the source bindings into
the destination in order. -/
def assignRecord (dst src : List (String × Value)) : List (String × Value) :=
  src.foldl (fun acc kv => setKey acc kv.1 kv.2) dst

/-- A JavaScript `Error` as used by validators: the constructor name (the
kind tag) and the message. -/
structure JsError where
  name : String
  message : String
deriving DecidableEq

/-- Result type of a DTO validator, from `DtoObjectValidator`:
`true | Error | Error[]`. -/
inductive DtoValidatorOutput where
  | valid
  | single (e : JsError)
  | multiple (es : List JsError)

/-- The `DtoValidationFailedException` carried by a failed build:
pre-formatted message, the attempted DTO object, and the ordered list of
underlying errors. -/
structure DtoValidationFailedException where
  message : String
  dto : Value
  validationErrors : List JsError

/-- Message formatting of `DtoValidationFailedException` (from
src/lib/dto-validation-failed.exception.ts): for an array of errors each
entry is rendered as its kind tag in brackets followed by the message,
one per line (joined by a newline and tab); a lone error contributes its
bare message. -/
def dtoValidationFailedMessage : Sum JsError (List JsError) → String
  | .inl e => "Cannot build a DTO. Validation failed!\n\t" ++ e.message
  | .inr es =>
      "Cannot build a DTO. Validation failed!\n\t" ++
        String.intercalate "\n\t" (es.map fun e => "[" ++ e.name ++ "]: " ++ e.message)

/-- Constructor of `DtoValidationFailedException`: normalises the
`Error | Error[]` argument into a list, keeping the given order. -/
def mkDtoValidationFailedException (dto : Value)
    (validationError : Sum JsError (List JsError)) : DtoValidationFailedException :=
  { message := dtoValidationFailedMessage validationError
    dto := dto
    validationErrors :=
      match validationError with
      | .inl e => [e]
      | .inr es => es }

/-- Closure state of a builder made by `createBuilder` in
src/lib/dto-builder.ts: the working-data record `dto` (its heap id and its
bindings) plus the optional validator and transformer. -/
structure FnBuilderState where
  recId : Nat
  dto : List (String × Value)
  validator : Option (Value → DtoValidatorOutput)
  transformer : Option (Value → Value)

/-- The factory `createBuilder(initData = {})`: the closure captures the
caller's record itself (`const dto = initData`), so the working data is
the very object the caller passed, with no clone on intake. -/
def fnCreateBuilder (initDataId : Nat) (initData : List (String × Value)) : FnBuilderState :=
  { recId := initDataId, dto := initData, validator := none, transformer := none }

/-- Embedding of `clone()` of the functional builder: `createBuilder({ ...dto })` — a
fresh top-level record carrying the same bindings (nested values by
reference), and a new builder without validator or transformer. -/
def fnClone (st : FnBuilderState) (freshId : Nat) : FnBuilderState :=
  { recId := freshId, dto := st.dto, validator := none, transformer := none }

/-- Embedding of `patch(override)`: `Object.assign(dto, override)` in place, on the same
record object. -/
def fnPatch (st : FnBuilderState) (override : List (String × Value)) : FnBuilderState :=
  { st with dto := assignRecord st.dto override }

/-- A generated setter: `dto[key] = value`, in place. -/
def fnSetField (st : FnBuilderState) (k : String) (v : Value) : FnBuilderState :=
  { st with dto := setKey st.dto k v }

/-- A generated getter: returns `dto[key]`, `none` modelling `undefined`
for an absent field. -/
def fnGetField (st : FnBuilderState) (k : String) : Option Value :=
  lookupRecord st.dto k

/-- Embedding of `useValidator(fn)`: installs the validator. -/
def fnUseValidator (st : FnBuilderState) (v : Value → DtoValidatorOutput) : FnBuilderState :=
  { st with validator := some v }

/-- Embedding of `useTransformer(fn)`: installs the transformer. -/
def fnUseTransformer (st : FnBuilderState) (t : Value → Value) : FnBuilderState :=
  { st with transformer := some t }

/-- A generated add method (`createAddMethod`): when the field does not
currently hold an array it is first reset to a fresh empty array, then all
given arguments are pushed in call order onto the (existing or fresh)
array, in place. -/
def fnAddMethod (st : FnBuilderState) (k : String) (items : List Value)
    (freshId : Nat) : FnBuilderState :=
  match lookupRecord st.dto k with
  | some (.arr aid existing) => { st with dto := setKey st.dto k (.arr aid (existing ++ items)) }
  | _ => { st with dto := setKey st.dto k (.arr freshId items) }

/-- A generated count method (`createCountMethod`): `0` unless the field
holds an array (`Array.isArray`), else its length. -/
def fnCountMethod (st : FnBuilderState) (k : String) : Nat :=
  match lookupRecord st.dto k with
  | some (.arr _ existing) => existing.length
  | _ => 0

/-- Apply an optional transformer: `transformer ? transformer(x) : x`. -/
def applyTransformer : Option (Value → Value) → Value → Value
  | some tr, v => tr v
  | none, v => v

/-- Embedding of `build(override = {})` of the functional builder: merge the working
data with the override into a fresh record (`Object.assign({}, dto,
override)`), apply the transformer if installed, then run the validator —
on the merged pre-transform record — and return Success or a
`DtoValidationFailedException` Failure. `mergedId` is the heap id of the
record `Object.assign` allocates. -/
def fnBuild (st : FnBuilderState) (override : List (String × Value))
    (mergedId : Nat) : Except DtoValidationFailedException Value :=
  let dtoData := Value.obj mergedId (assignRecord st.dto override)
  let dtoObj := match st.transformer with
    | some tr => tr dtoData
    | none => dtoData
  match st.validator with
  | some v =>
      match v dtoData with
      | .valid => .ok dtoObj
      | .single e => .error (mkDtoValidationFailedException dtoObj (.inl e))
      | .multiple es => .error (mkDtoValidationFailedException dtoObj (.inr es))
  | none => .ok dtoObj

/-- State of the class-based `DtoBuilder` variant: the `initData` snapshot
kept for `reset`, the working data `dto`, and the two hooks. -/
structure ClassBuilderState where
  initData : Value
  dto : Value
  validator : Option (Value → DtoValidatorOutput)
  transformer : Option (Value → Value)

/-- The class constructor: `this.initData = initData` (the caller's record
itself, by reference) and `this.dto = deepClone(initData)`. -/
def classConstructor (initData : Value) (n : Nat) : Option (ClassBuilderState × Nat) :=
  match deepClone initData n with
  | some (c, n1) =>
      some ({ initData := initData, dto := c, validator := none, transformer := none }, n1)
  | none => none

/-- Embedding of `clone()` of the class builder: `create(deepClone(this.dto))` — the
constructor clones its argument once more into the working data — followed
by `useTransformer(this.transformer)` and `useValidator(this.validator)`. -/
def classClone (st : ClassBuilderState) (n : Nat) : Option (ClassBuilderState × Nat) :=
  match deepClone st.dto n with
  | some (c1, n1) =>
      match deepClone c1 n1 with
      | some (c2, n2) =>
          some ({ initData := c1, dto := c2,
                  validator := st.validator, transformer := st.transformer }, n2)
      | none => none
  | none => none

/-- Uppercase ASCII letter test, the `[A-Z]` character class. -/
def isUpperChar (c : Char) : Bool := 'A' ≤ c && c ≤ 'Z'

/-- Strip a literal pattern from the front of a character list, `none` when
it is not a prefix. -/
def stripLeading : List Char → List Char → Option (List Char)
  | [], s => some s
  | _ :: _, [] => none
  | p :: ps, c :: cs => if p = c then stripLeading ps cs else none

/-- The anchored regex `^pat[A-Z]`: the pattern at the start, followed by
an uppercase letter. -/
def startsWithCap (pat : String) (s : String) : Bool :=
  match stripLeading pat.data s.data with
  | some (c :: _) => isUpperChar c
  | _ => false

/-- Whether `pat[A-Z]` matches at the given position. -/
def atCap (pat : List Char) (s : List Char) : Bool :=
  match stripLeading pat s with
  | some (c :: _) => isUpperChar c
  | _ => false

/-- Scan for `pat[A-Z]` at every position. -/
def scanSubCap (pat : List Char) : List Char → Bool
  | [] => atCap pat []
  | c :: cs => atCap pat (c :: cs) || scanSubCap pat cs

/-- The unanchored regex `pat[A-Z]`, as used for the add and count member
patterns: a match anywhere in the name counts. -/
def hasSubCap (pat : String) (s : String) : Bool :=
  scanSubCap pat.data s.data

/-- Model of `prop.replace(new RegExp('^' + prefix), '')`: drop the pattern when it
is a prefix, else leave the string unchanged. -/
def stripStart (pat : List Char) (s : List Char) : List Char :=
  match stripLeading pat s with
  | some r => r
  | none => s

/-- Model of `replace(/^[A-Z]/, m => m.toLowerCase())`: lowercase a leading
uppercase letter. -/
def lowerFirst : List Char → List Char
  | [] => []
  | c :: cs => (if isUpperChar c then c.toLower else c) :: cs

/-- Embedding of `extractKey(prefix, prop)` from src/lib/dto-builder.ts. -/
def extractKey (pat : String) (prop : String) : String :=
  ⟨lowerFirst (stripStart pat.data prop.data)⟩

/-- What the proxy `get` trap resolves a string member name to. -/
inductive MemberResolution where
  | baseOp (name : String)
  | setter (key : String)
  | getter (key : String)
  | adder (key : String)
  | counter (key : String)
  | unknownMember (msg : String)
deriving DecidableEq

/-- The statically-declared operations of the functional builder's base
object: its own properties, all function-valued. -/
def baseOps : List String :=
  ["clone", "extend", "patch", "useValidator", "useTransformer", "build"]

/-- The function-valued members the base object inherits from
`Object.prototype`: the `in` operator used by the trap's first test walks
the prototype chain, and `typeof baseObj[prop] === 'function'` holds for
these standard members (the `__proto__` accessor is inherited too but
yields an object, not a function, so it falls through to the pattern
tests like any other name). -/
def objectProtoFunctionMembers : List String :=
  ["constructor", "hasOwnProperty", "isPrototypeOf", "propertyIsEnumerable",
   "toLocaleString", "toString", "valueOf",
   "__defineGetter__", "__defineSetter__", "__lookupGetter__", "__lookupSetter__"]

/-- The proxy `get` trap of `createBuilder` for string member names, in
source order: first the test `prop in baseObj && typeof baseObj[prop] ===
'function'`, satisfied by the declared operations and by the
function-valued members inherited from `Object.prototype`; then the
anchored `^set[A-Z]` and `^get[A-Z]` patterns, then the unanchored
`add[A-Z]` and `count[A-Z]` patterns, otherwise a thrown TypeError naming
the property. -/
def resolveMember (prop : String) : MemberResolution :=
  if baseOps.contains prop || objectProtoFunctionMembers.contains prop then .baseOp prop
  else if startsWithCap "set" prop then .setter (extractKey "set" prop)
  else if startsWithCap "get" prop then .getter (extractKey "get" prop)
  else if hasSubCap "add" prop then .adder (extractKey "add" prop)
  else if hasSubCap "count" prop then .counter (extractKey "count" prop)
  else .unknownMember ("Property \"" ++ prop ++ "\" does not exist on Data builder")

theorem lookupRecord_setKey_self (d : List (String × Value)) (k : String) (v : Value) :
    lookupRecord (setKey d k v) k = some v := by
  induction d with
  | nil => simp [setKey, lookupRecord]
  | cons hd tl ih =>
      obtain ⟨k1, v1⟩ := hd
      by_cases h : k1 = k
      · subst h; simp [setKey, lookupRecord]
      · simp [setKey, lookupRecord, h, ih]

theorem lookupRecord_setKey_ne (d : List (String × Value)) (k0 k : String) (v : Value)
    (h : k ≠ k0) : lookupRecord (setKey d k v) k0 = lookupRecord d k0 := by
  induction d with
  | nil => simp [setKey, lookupRecord, h]
  | cons hd tl ih =>
      obtain ⟨k1, v1⟩ := hd
      by_cases h1 : k1 = k
      · subst h1; simp [setKey, lookupRecord, h, fun hh : k1 = k0 => h (hh ▸ rfl)]
      · simp only [setKey, if_neg h1, lookupRecord]
        by_cases h2 : k1 = k0
        · simp [h2]
        · simp [h2, ih]

theorem lookupRecord_eq_none_of_not_mem (o : List (String × Value)) (k : String)
    (h : k ∉ o.map Prod.fst) : lookupRecord o k = none := by
  induction o with
  | nil => rfl
  | cons hd tl ih =>
      obtain ⟨k1, v1⟩ := hd
      simp only [List.map_cons, List.mem_cons] at h
      push_neg at h
      simp only [lookupRecord, if_neg (fun hh : k1 = k => h.1 hh.symm)]
      exact ih h.2

theorem assignRecord_cons (d : List (String × Value)) (k : String) (v : Value)
    (o : List (String × Value)) :
    assignRecord d ((k, v) :: o) = assignRecord (setKey d k v) o := rfl

theorem lookupRecord_assignRecord_not_mem (o : List (String × Value)) :
    ∀ (d : List (String × Value)) (k : String), k ∉ o.map Prod.fst →
      lookupRecord (assignRecord d o) k = lookupRecord d k := by
  induction o with
  | nil => intro d k _; rfl
  | cons hd tl ih =>
      obtain ⟨k1, v1⟩ := hd
      intro d k hk
      simp only [List.map_cons, List.mem_cons] at hk
      push_neg at hk
      rw [assignRecord_cons, ih _ _ hk.2,
        lookupRecord_setKey_ne _ _ _ _ (fun hh : k1 = k => hk.1 hh.symm)]

/-- Characterisation of `Object.assign({}, dst, src)`: on any key the source
wins when it binds the key, otherwise the destination's binding survives. -/
theorem lookupRecord_assignRecord (o : List (String × Value)) :
    ∀ (d : List (String × Value)) (k : String), (o.map Prod.fst).Nodup →
      lookupRecord (assignRecord d o) k =
        match lookupRecord o k with
        | some v => some v
        | none => lookupRecord d k := by
  induction o with
  | nil => intro d k _; rfl
  | cons hd tl ih =>
      obtain ⟨k1, v1⟩ := hd
      intro d k hnd
      simp only [List.map_cons, List.nodup_cons] at hnd
      obtain ⟨hk1, hnd⟩ := hnd
      rw [assignRecord_cons]
      by_cases h : k1 = k
      · subst h
        rw [lookupRecord_assignRecord_not_mem tl _ _ hk1]
        simp [lookupRecord, lookupRecord_setKey_self]
      · rw [ih _ _ hnd]
        simp only [lookupRecord, if_neg h]
        cases hlo : lookupRecord tl k with
        | some w => rfl
        | none => simp [lookupRecord_setKey_ne _ _ _ _ (fun hh : k1 = k => h hh)]

/-- C1: with no validator installed, `build(override)` always returns
Success whose payload is the working data merged with the override —
override winning on conflicting keys, as the lookup characterisation of
the merge states — passed through the transformer when one is installed
and unchanged otherwise. -/
theorem build_no_validator_success (recId : Nat) (d o : List (String × Value))
    (t : Option (Value → Value)) (mergedId : Nat) (h : (o.map Prod.fst).Nodup) :
    fnBuild ⟨recId, d, none, t⟩ o mergedId
      = .ok (applyTransformer t (Value.obj mergedId (assignRecord d o)))
    ∧ ∀ k, lookupRecord (assignRecord d o) k =
        match lookupRecord o k with
        | some v => some v
        | none => lookupRecord d k := by
  constructor
  · cases t <;> rfl
  · intro k; exact lookupRecord_assignRecord o d k h

/-- Witness for C1 at a concrete builder: working data `{foo: 'bar'}`,
override `{foo: 'baz', extra: 1}`, no transformer. -/
theorem build_no_validator_success_witness :
    (([("foo", Value.prim (Prim.str "baz")), ("extra", Value.prim (Prim.num 1))].map
        Prod.fst).Nodup)
    ∧ fnBuild ⟨0, [("foo", Value.prim (Prim.str "bar"))], none, none⟩
        [("foo", Value.prim (Prim.str "baz")), ("extra", Value.prim (Prim.num 1))] 4
      = .ok (applyTransformer none (Value.obj 4 (assignRecord
          [("foo", Value.prim (Prim.str "bar"))]
          [("foo", Value.prim (Prim.str "baz")), ("extra", Value.prim (Prim.num 1))]))) :=
  ⟨by decide,
   (build_no_validator_success 0 [("foo", Value.prim (Prim.str "bar"))]
      [("foo", Value.prim (Prim.str "baz")), ("extra", Value.prim (Prim.num 1))]
      none 4 (by decide)).1⟩

/-- C2: when both a transformer and a validator are installed, the build
outcome is decided by the validator's verdict on the merged pre-transform
record (the plain merged data object), while the candidate carried by the
outcome is the transformer applied to that merged record.  The witness
exhibits a validator that rejects the transformed candidate yet build
succeeds, because the validator is consulted on the pre-transform data
only. -/
theorem build_validator_receives_merged_pre_transform
    (recId : Nat) (d o : List (String × Value)) (tr : Value → Value)
    (v : Value → DtoValidatorOutput) (mergedId : Nat) :
    (v (Value.obj mergedId (assignRecord d o)) = .valid →
      fnBuild ⟨recId, d, some v, some tr⟩ o mergedId
        = .ok (tr (Value.obj mergedId (assignRecord d o))))
    ∧ (∀ e, v (Value.obj mergedId (assignRecord d o)) = .single e →
      fnBuild ⟨recId, d, some v, some tr⟩ o mergedId
        = .error (mkDtoValidationFailedException
            (tr (Value.obj mergedId (assignRecord d o))) (.inl e)))
    ∧ (∀ es, v (Value.obj mergedId (assignRecord d o)) = .multiple es →
      fnBuild ⟨recId, d, some v, some tr⟩ o mergedId
        = .error (mkDtoValidationFailedException
            (tr (Value.obj mergedId (assignRecord d o))) (.inr es))) := by
  refine ⟨fun h => ?_, fun e h => ?_, fun es h => ?_⟩ <;> simp [fnBuild, h]

/-- Validator used by the C2 witness: rejects exactly string primitives —
in particular the transformed sentinel — and accepts everything else. -/
def c2Validator : Value → DtoValidatorOutput := fun x =>
  match x with
  | Value.prim (Prim.str _) => .single ⟨"Error", "rejected transformed object"⟩
  | _ => .valid

/-- Transformer used by the C2 witness: maps everything to a string
sentinel. -/
def c2Transformer : Value → Value := fun _ => Value.prim (Prim.str "transformed")

/-- Witness for C2: the validator accepts the merged record, so build
succeeds with the transformed candidate, even though the same validator
rejects that transformed candidate. -/
theorem build_validator_receives_merged_pre_transform_witness :
    c2Validator (Value.obj 0 (assignRecord [] [])) = .valid
    ∧ fnBuild ⟨0, [], some c2Validator, some c2Transformer⟩ [] 0
        = .ok (c2Transformer (Value.obj 0 (assignRecord [] [])))
    ∧ c2Validator (c2Transformer (Value.obj 0 (assignRecord [] [])))
        = .single ⟨"Error", "rejected transformed object"⟩ :=
  ⟨rfl,
   (build_validator_receives_merged_pre_transform 0 [] [] c2Transformer c2Validator 0).1 rfl,
   rfl⟩

/-- C3: a validator returning a single error makes build return (not
throw) a Failure whose error list is exactly that one error; a validator
returning a list of N errors makes build return a Failure carrying the
candidate object and exactly those N errors in the validator's order,
with a message concatenating each error's kind tag and message one per
line. -/
theorem build_failure_error_list_and_message
    (recId : Nat) (d o : List (String × Value)) (t : Option (Value → Value))
    (v : Value → DtoValidatorOutput) (mergedId : Nat) :
    (∀ e, v (Value.obj mergedId (assignRecord d o)) = .single e →
      fnBuild ⟨recId, d, some v, t⟩ o mergedId
        = .error (mkDtoValidationFailedException
            (applyTransformer t (Value.obj mergedId (assignRecord d o))) (.inl e))
      ∧ (mkDtoValidationFailedException
            (applyTransformer t (Value.obj mergedId (assignRecord d o)))
            (.inl e)).validationErrors = [e])
    ∧ (∀ es, v (Value.obj mergedId (assignRecord d o)) = .multiple es →
      fnBuild ⟨recId, d, some v, t⟩ o mergedId
        = .error (mkDtoValidationFailedException
            (applyTransformer t (Value.obj mergedId (assignRecord d o))) (.inr es))
      ∧ (mkDtoValidationFailedException
            (applyTransformer t (Value.obj mergedId (assignRecord d o)))
            (.inr es)).validationErrors = es
      ∧ (mkDtoValidationFailedException
            (applyTransformer t (Value.obj mergedId (assignRecord d o)))
            (.inr es)).message
          = "Cannot build a DTO. Validation failed!\n\t" ++
              String.intercalate "\n\t"
                (es.map fun e => "[" ++ e.name ++ "]: " ++ e.message)) := by
  constructor
  · intro e h
    cases t <;> exact ⟨by simp [fnBuild, h, applyTransformer], rfl⟩
  · intro es h
    cases t <;> exact ⟨by simp [fnBuild, h, applyTransformer], rfl, rfl⟩

/-- Validator used by the C3 witness: always reports two errors. -/
def c3Validator : Value → DtoValidatorOutput := fun _ =>
  .multiple [⟨"TypeError", "bad foo"⟩, ⟨"RangeError", "bad bar"⟩]

/-- Witness for C3 at a concrete builder whose validator reports two
errors: the failure lists both errors in order and the message carries
both kind tags, one per line. -/
theorem build_failure_error_list_and_message_witness :
    c3Validator (Value.obj 5 (assignRecord [] []))
      = .multiple [⟨"TypeError", "bad foo"⟩, ⟨"RangeError", "bad bar"⟩]
    ∧ fnBuild ⟨0, [], some c3Validator, none⟩ [] 5
        = .error (mkDtoValidationFailedException
            (applyTransformer none (Value.obj 5 (assignRecord [] [])))
            (.inr [⟨"TypeError", "bad foo"⟩, ⟨"RangeError", "bad bar"⟩]))
    ∧ (mkDtoValidationFailedException
          (applyTransformer none (Value.obj 5 (assignRecord [] [])))
          (.inr [⟨"TypeError", "bad foo"⟩, ⟨"RangeError", "bad bar"⟩])).message
        = "Cannot build a DTO. Validation failed!\n\t[TypeError]: bad foo\n\t[RangeError]: bad bar" :=
  ⟨rfl,
   ((build_failure_error_list_and_message 0 [] [] none c3Validator 5).2
      [⟨"TypeError", "bad foo"⟩, ⟨"RangeError", "bad bar"⟩] rfl).1,
   rfl⟩

/-- Model of `Array.isArray` on a value. -/
def isArrayValue : Value → Bool
  | .arr _ _ => true
  | _ => false

/-- C8: adding to a sequence field with no prior value first auto-creates
the field as an empty sequence and then appends, so the getter returns
exactly the appended items (in call order) and the count method their
number; appending to an existing array keeps its identity and appends in
call order; and the count method returns 0 whenever the field is absent
or not an array. -/
theorem add_method_auto_create_append_count (st : FnBuilderState) (k : String)
    (xs : List Value) (freshId : Nat) :
    (fnGetField st k = none →
      fnGetField (fnAddMethod st k xs freshId) k = some (.arr freshId xs)
      ∧ fnCountMethod (fnAddMethod st k xs freshId) k = xs.length)
    ∧ (∀ aid items, fnGetField st k = some (.arr aid items) →
      fnGetField (fnAddMethod st k xs freshId) k = some (.arr aid (items ++ xs))
      ∧ fnCountMethod (fnAddMethod st k xs freshId) k = items.length + xs.length)
    ∧ (fnGetField st k = none → fnCountMethod st k = 0)
    ∧ (∀ w, fnGetField st k = some w → isArrayValue w = false →
        fnCountMethod st k = 0) := by
  refine ⟨fun h => ?_, fun aid items h => ?_, fun h => ?_, fun w h hw => ?_⟩
  · unfold fnGetField at h
    unfold fnAddMethod fnGetField fnCountMethod
    simp [h, lookupRecord_setKey_self]
  · unfold fnGetField at h
    unfold fnAddMethod fnGetField fnCountMethod
    simp [h, lookupRecord_setKey_self]
  · unfold fnGetField at h
    unfold fnCountMethod
    simp [h]
  · unfold fnGetField at h
    unfold fnCountMethod
    rw [h]
    cases w <;> first | rfl | simp [isArrayValue] at hw

/-- Witness for C8: on a builder with no value for `foo`, `addFoo(x)`
yields `getFoo() = [x]` and `countFoo() = 1`; on the result, a further
`addFoo(y, z)` appends in call order; and `countBar()` on the fresh
builder is 0. -/
theorem add_method_auto_create_append_count_witness :
    fnGetField (fnCreateBuilder 0 []) "foo" = none
    ∧ fnGetField (fnAddMethod (fnCreateBuilder 0 []) "foo" [Value.prim (Prim.num 1)] 3) "foo"
        = some (.arr 3 [Value.prim (Prim.num 1)])
    ∧ fnCountMethod (fnAddMethod (fnCreateBuilder 0 []) "foo" [Value.prim (Prim.num 1)] 3) "foo"
        = 1
    ∧ fnCountMethod (fnCreateBuilder 0 []) "foo" = 0 :=
  ⟨rfl,
   ((add_method_auto_create_append_count (fnCreateBuilder 0 []) "foo"
      [Value.prim (Prim.num 1)] 3).1 rfl).1,
   ((add_method_auto_create_append_count (fnCreateBuilder 0 []) "foo"
      [Value.prim (Prim.num 1)] 3).1 rfl).2,
   (add_method_auto_create_append_count (fnCreateBuilder 0 []) "foo"
      [Value.prim (Prim.num 1)] 3).2.2.1 rfl⟩

/-- C9 counterexample: the name `recountAll` matches no declared operation
and carries none of the four accessor prefixes (it does not start with
get, set, add or count), yet the proxy resolves it to a count accessor
for the field `recountAll` instead of throwing the unknown-member error,
because the `add[A-Z]` and `count[A-Z]` patterns are tested unanchored;
and the name `toString`, likewise neither an operation nor prefixed,
resolves to the function inherited from `Object.prototype` instead of
throwing, because `prop in baseObj` walks the prototype chain. -/
theorem resolveMember_unanchored_quirk :
    resolveMember "recountAll" = .counter "recountAll"
    ∧ baseOps.contains "recountAll" = false
    ∧ startsWithCap "set" "recountAll" = false
    ∧ startsWithCap "get" "recountAll" = false
    ∧ startsWithCap "add" "recountAll" = false
    ∧ startsWithCap "count" "recountAll" = false
    ∧ resolveMember "toString" = .baseOp "toString"
    ∧ baseOps.contains "toString" = false
    ∧ startsWithCap "set" "toString" = false
    ∧ startsWithCap "get" "toString" = false
    ∧ startsWithCap "add" "toString" = false
    ∧ startsWithCap "count" "toString" = false :=
  ⟨rfl, rfl, rfl, rfl, rfl, rfl, rfl, rfl, rfl, rfl, rfl, rfl⟩

/-- C9 amended: a string member name resolves to the descriptive
unknown-member error naming the property exactly when it matches no
declared builder operation, is none of the function-valued members
inherited from `Object.prototype` (which `prop in baseObj` finds and the
trap resolves to wrapped functions), fails the anchored `^set[A-Z]` and
`^get[A-Z]` tests, and contains no occurrence of `add` or `count`
followed by a capital letter anywhere in the name (the add and count
patterns being unanchored); all other names silently resolve to a
function, never to an absent value. -/
theorem resolveMember_unknown_iff (prop : String) :
    resolveMember prop
        = .unknownMember ("Property \"" ++ prop ++ "\" does not exist on Data builder")
      ↔ (baseOps.contains prop = false
         ∧ objectProtoFunctionMembers.contains prop = false
         ∧ startsWithCap "set" prop = false
         ∧ startsWithCap "get" prop = false
         ∧ hasSubCap "add" prop = false
         ∧ hasSubCap "count" prop = false) := by
  unfold resolveMember
  split_ifs with h1 h2 h3 h4 h5
  · constructor
    · intro h; cases h
    · rintro ⟨ha, hb, -, -, -, -⟩
      rcases (show baseOps.contains prop = true ∨
          objectProtoFunctionMembers.contains prop = true by simpa using h1) with hx | hx
      · rw [ha] at hx; cases hx
      · rw [hb] at hx; cases hx
  · constructor
    · intro h; cases h
    · rintro ⟨-, -, hx, -, -, -⟩
      rw [hx] at h2; cases h2
  · constructor
    · intro h; cases h
    · rintro ⟨-, -, -, hx, -, -⟩
      rw [hx] at h3; cases h3
  · constructor
    · intro h; cases h
    · rintro ⟨-, -, -, -, hx, -⟩
      rw [hx] at h4; cases h4
  · constructor
    · intro h; cases h
    · rintro ⟨-, -, -, -, -, hx⟩
      rw [hx] at h5; cases h5
  · constructor
    · intro _
      have h1d : baseOps.contains prop = false ∧
          objectProtoFunctionMembers.contains prop = false := by
        simpa [not_or] using h1
      exact ⟨h1d.1, h1d.2, by simpa using h2, by simpa using h3,
        by simpa using h4, by simpa using h5⟩
    · intro _; rfl

/-- The entry list of a map value (the map itself for other values is
irrelevant and yields the empty list). -/
def mapEntriesOf : Value → List (Value × Value)
  | .vmap _ es => es
  | _ => []

theorem deepCloneEntries_fst :
    ∀ (es : List (Value × Value)) (n : Nat) (es1 : List (Value × Value)) (n1 : Nat),
      deepCloneEntries es n = some (es1, n1) → es1.map Prod.fst = es.map Prod.fst := by
  intro es
  induction es with
  | nil =>
      intro n es1 n1 h
      simp only [deepCloneEntries, Option.some.injEq, Prod.mk.injEq] at h
      rw [← h.1]
  | cons hd tl ih =>
      obtain ⟨k, v⟩ := hd
      intro n es1 n1 h
      simp only [deepCloneEntries] at h
      cases h1 : (if typeofObject v then deepClone v n else some (v, n)) with
      | none => rw [h1] at h; cases h
      | some p =>
          obtain ⟨v1, m⟩ := p
          rw [h1] at h
          dsimp only at h
          cases h2 : deepCloneEntries tl m with
          | none => rw [h2] at h; cases h
          | some q =>
              obtain ⟨es2, n2⟩ := q
              rw [h2] at h
              simp only [Option.some.injEq, Prod.mk.injEq] at h
              rw [← h.1]
              simp [ih m es2 n2 h2]

/-- C10: when deepClone succeeds on a map, the result is a map whose keys
are the very same key objects as the input's, in the same order — keys
are copied by reference and only the values are recursively cloned — so a
mutable key object remains shared between original and clone. -/
theorem deepClone_map_keys_shared (id : Nat) (entries : List (Value × Value))
    (n n1 : Nat) (v1 : Value)
    (h : deepClone (.vmap id entries) n = some (v1, n1)) :
    v1 = .vmap n (mapEntriesOf v1)
    ∧ (mapEntriesOf v1).map Prod.fst = entries.map Prod.fst := by
  simp only [deepClone] at h
  cases h1 : deepCloneEntries entries (n + 1) with
  | none => rw [h1] at h; cases h
  | some p =>
      obtain ⟨es1, n2⟩ := p
      rw [h1] at h
      simp only [Option.some.injEq, Prod.mk.injEq] at h
      rw [← h.1]
      exact ⟨rfl, deepCloneEntries_fst entries (n + 1) es1 n2 h1⟩

/-- Witness for C10 at a concrete map whose key is a mutable record: the
clone's key list is identical (same object id 0). -/
theorem deepClone_map_keys_shared_witness :
    deepClone (.vmap 1 [(.obj 0 [], .prim (.num 2))]) 5
      = some (.vmap 5 [(.obj 0 [], .prim (.num 2))], 6)
    ∧ (Value.vmap 5 [(.obj 0 [], .prim (.num 2))]
        = .vmap 5 (mapEntriesOf (.vmap 5 [(.obj 0 [], .prim (.num 2))]))
      ∧ (mapEntriesOf (Value.vmap 5 [(.obj 0 [], .prim (.num 2))])).map Prod.fst
          = [(Value.obj 0 [], Value.prim (Prim.num 2))].map Prod.fst) :=
  ⟨rfl,
   deepClone_map_keys_shared 1 [(.obj 0 [], .prim (.num 2))] 5 6
     (.vmap 5 [(.obj 0 [], .prim (.num 2))]) rfl⟩

mutual
/-- Whether the deepClone traversal reaches a plain-record field holding a
callable function — the exact condition under which the source throws its
TypeError.  The traversal descends through records, lists, sets and map
values; map keys are copied by reference and never inspected, so nothing
inside a map-key subtree is visited. -/
def hasFuncFieldV : Value → Bool
  | .prim _ => false
  | .func _ => false
  | .date _ _ => false
  | .regexp _ _ _ => false
  | .arr _ items => hasFuncFieldList items
  | .set _ items => hasFuncFieldList items
  | .vmap _ es => hasFuncFieldEntries es
  | .obj _ fs => hasFuncFieldFields fs

def hasFuncFieldList : List Value → Bool
  | [] => false
  | v :: vs => hasFuncFieldV v || hasFuncFieldList vs

def hasFuncFieldEntries : List (Value × Value) → Bool
  | [] => false
  | (_, v) :: es => hasFuncFieldV v || hasFuncFieldEntries es

def hasFuncFieldFields : List (String × Value) → Bool
  | [] => false
  | (_, v) :: fs => typeofFunction v || (hasFuncFieldV v || hasFuncFieldFields fs)
end

theorem nonObject_hasFuncField (v : Value) (ho : typeofObject v = false) :
    hasFuncFieldV v = false := by
  cases v
  case prim p => rfl
  case func i => rfl
  all_goals simp [typeofObject] at ho

mutual
theorem deepCloneNoneIffV : ∀ (v : Value) (n : Nat),
    deepClone v n = none ↔ hasFuncFieldV v = true
  | .prim p, n => by cases p <;> simp [deepClone, hasFuncFieldV]
  | .func i, n => by simp [deepClone, hasFuncFieldV]
  | .date id t, n => by simp [deepClone, hasFuncFieldV]
  | .regexp id s f, n => by simp [deepClone, hasFuncFieldV]
  | .arr id items, n => by
      cases h : deepCloneItems items (n + 1) with
      | none =>
          have hv := (deepCloneNoneIffList items (n + 1)).mp h
          simp [deepClone, h, hasFuncFieldV, hv]
      | some p =>
          obtain ⟨its, n1⟩ := p
          have hv : ¬ hasFuncFieldList items = true := by
            intro hh
            have h2 := (deepCloneNoneIffList items (n + 1)).mpr hh
            rw [h] at h2
            cases h2
          simp [deepClone, h, hasFuncFieldV, hv]
  | .set id items, n => by
      cases h : deepCloneItems items (n + 1) with
      | none =>
          have hv := (deepCloneNoneIffList items (n + 1)).mp h
          simp [deepClone, h, hasFuncFieldV, hv]
      | some p =>
          obtain ⟨its, n1⟩ := p
          have hv : ¬ hasFuncFieldList items = true := by
            intro hh
            have h2 := (deepCloneNoneIffList items (n + 1)).mpr hh
            rw [h] at h2
            cases h2
          simp [deepClone, h, hasFuncFieldV, hv]
  | .vmap id es, n => by
      cases h : deepCloneEntries es (n + 1) with
      | none =>
          have hv := (deepCloneNoneIffEntries es (n + 1)).mp h
          simp [deepClone, h, hasFuncFieldV, hv]
      | some p =>
          obtain ⟨es1, n1⟩ := p
          have hv : ¬ hasFuncFieldEntries es = true := by
            intro hh
            have h2 := (deepCloneNoneIffEntries es (n + 1)).mpr hh
            rw [h] at h2
            cases h2
          simp [deepClone, h, hasFuncFieldV, hv]
  | .obj id fs, n => by
      cases h : deepCloneFields fs (n + 1) with
      | none =>
          have hv := (deepCloneNoneIffFields fs (n + 1)).mp h
          simp [deepClone, h, hasFuncFieldV, hv]
      | some p =>
          obtain ⟨fs1, n1⟩ := p
          have hv : ¬ hasFuncFieldFields fs = true := by
            intro hh
            have h2 := (deepCloneNoneIffFields fs (n + 1)).mpr hh
            rw [h] at h2
            cases h2
          simp [deepClone, h, hasFuncFieldV, hv]

theorem deepCloneNoneIffList : ∀ (vs : List Value) (n : Nat),
    deepCloneItems vs n = none ↔ hasFuncFieldList vs = true
  | [], n => by simp [deepCloneItems, hasFuncFieldList]
  | v :: vs, n => by
      by_cases hobj : typeofObject v = true
      · cases h1 : deepClone v n with
        | none =>
            have hv := (deepCloneNoneIffV v n).mp h1
            simp [deepCloneItems, hobj, h1, hasFuncFieldList, hv]
        | some p =>
            obtain ⟨v1, n1⟩ := p
            have hv : ¬ hasFuncFieldV v = true := by
              intro hh
              have h2 := (deepCloneNoneIffV v n).mpr hh
              rw [h1] at h2
              cases h2
            cases h2 : deepCloneItems vs n1 with
            | none =>
                have hvs := (deepCloneNoneIffList vs n1).mp h2
                simp [deepCloneItems, hobj, h1, h2, hasFuncFieldList, hvs]
            | some q =>
                obtain ⟨vs1, n2⟩ := q
                have hvs : ¬ hasFuncFieldList vs = true := by
                  intro hh
                  have h3 := (deepCloneNoneIffList vs n1).mpr hh
                  rw [h2] at h3
                  cases h3
                simp [deepCloneItems, hobj, h1, h2, hasFuncFieldList, hv, hvs]
      · have hno : typeofObject v = false := by simpa using hobj
        have hv : hasFuncFieldV v = false := nonObject_hasFuncField v hno
        cases h2 : deepCloneItems vs n with
        | none =>
            have hvs := (deepCloneNoneIffList vs n).mp h2
            simp [deepCloneItems, hno, h2, hasFuncFieldList, hvs]
        | some q =>
            obtain ⟨vs1, n2⟩ := q
            have hvs : ¬ hasFuncFieldList vs = true := by
              intro hh
              have h3 := (deepCloneNoneIffList vs n).mpr hh
              rw [h2] at h3
              cases h3
            simp [deepCloneItems, hno, h2, hasFuncFieldList, hv, hvs]

theorem deepCloneNoneIffEntries : ∀ (es : List (Value × Value)) (n : Nat),
    deepCloneEntries es n = none ↔ hasFuncFieldEntries es = true
  | [], n => by simp [deepCloneEntries, hasFuncFieldEntries]
  | (k, v) :: es, n => by
      by_cases hobj : typeofObject v = true
      · cases h1 : deepClone v n with
        | none =>
            have hv := (deepCloneNoneIffV v n).mp h1
            simp [deepCloneEntries, hobj, h1, hasFuncFieldEntries, hv]
        | some p =>
            obtain ⟨v1, n1⟩ := p
            have hv : ¬ hasFuncFieldV v = true := by
              intro hh
              have h2 := (deepCloneNoneIffV v n).mpr hh
              rw [h1] at h2
              cases h2
            cases h2 : deepCloneEntries es n1 with
            | none =>
                have hes := (deepCloneNoneIffEntries es n1).mp h2
                simp [deepCloneEntries, hobj, h1, h2, hasFuncFieldEntries, hes]
            | some q =>
                obtain ⟨es1, n2⟩ := q
                have hes : ¬ hasFuncFieldEntries es = true := by
                  intro hh
                  have h3 := (deepCloneNoneIffEntries es n1).mpr hh
                  rw [h2] at h3
                  cases h3
                simp [deepCloneEntries, hobj, h1, h2, hasFuncFieldEntries, hv, hes]
      · have hno : typeofObject v = false := by simpa using hobj
        have hv : hasFuncFieldV v = false := nonObject_hasFuncField v hno
        cases h2 : deepCloneEntries es n with
        | none =>
            have hes := (deepCloneNoneIffEntries es n).mp h2
            simp [deepCloneEntries, hno, h2, hasFuncFieldEntries, hes]
        | some q =>
            obtain ⟨es1, n2⟩ := q
            have hes : ¬ hasFuncFieldEntries es = true := by
              intro hh
              have h3 := (deepCloneNoneIffEntries es n).mpr hh
              rw [h2] at h3
              cases h3
            simp [deepCloneEntries, hno, h2, hasFuncFieldEntries, hv, hes]

theorem deepCloneNoneIffFields : ∀ (fs : List (String × Value)) (n : Nat),
    deepCloneFields fs n = none ↔ hasFuncFieldFields fs = true
  | [], n => by simp [deepCloneFields, hasFuncFieldFields]
  | (k, v) :: fs, n => by
      by_cases hfn : typeofFunction v = true
      · simp [deepCloneFields, hfn, hasFuncFieldFields]
      · have hfn2 : typeofFunction v = false := by simpa using hfn
        by_cases hobj : typeofObject v = true
        · cases h1 : deepClone v n with
          | none =>
              have hv := (deepCloneNoneIffV v n).mp h1
              simp [deepCloneFields, hfn2, hobj, h1, hasFuncFieldFields, hv]
          | some p =>
              obtain ⟨v1, n1⟩ := p
              have hv : ¬ hasFuncFieldV v = true := by
                intro hh
                have h2 := (deepCloneNoneIffV v n).mpr hh
                rw [h1] at h2
                cases h2
              cases h2 : deepCloneFields fs n1 with
              | none =>
                  have hfs := (deepCloneNoneIffFields fs n1).mp h2
                  simp [deepCloneFields, hfn2, hobj, h1, h2, hasFuncFieldFields, hfs]
              | some q =>
                  obtain ⟨fs1, n2⟩ := q
                  have hfs : ¬ hasFuncFieldFields fs = true := by
                    intro hh
                    have h3 := (deepCloneNoneIffFields fs n1).mpr hh
                    rw [h2] at h3
                    cases h3
                  simp [deepCloneFields, hfn2, hobj, h1, h2, hasFuncFieldFields, hv, hfs]
        · have hno : typeofObject v = false := by simpa using hobj
          have hv : hasFuncFieldV v = false := nonObject_hasFuncField v hno
          cases h2 : deepCloneFields fs n with
          | none =>
              have hfs := (deepCloneNoneIffFields fs n).mp h2
              simp [deepCloneFields, hfn2, hno, h2, hasFuncFieldFields, hfs]
          | some q =>
              obtain ⟨fs1, n2⟩ := q
              have hfs : ¬ hasFuncFieldFields fs = true := by
                intro hh
                have h3 := (deepCloneNoneIffFields fs n).mpr hh
                rw [h2] at h3
                cases h3
              simp [deepCloneFields, hfn2, hno, h2, hasFuncFieldFields, hv, hfs]
end

/-- C7 counterexample: value graphs with a reachable callable function at
the top level, as a list element, as a set element, or as a map value are
cloned without any type error — the function is copied by reference — and
even a record with a function field raises no error when it sits inside a
map-key subtree, so the claim that deepClone fails for every reachable
function is false. -/
theorem deepClone_function_positions_no_error :
    deepClone (.func 3) 5 = some (.func 3, 5)
    ∧ deepClone (.arr 0 [.func 1]) 5 = some (.arr 5 [.func 1], 6)
    ∧ deepClone (.set 0 [.func 1]) 5 = some (.set 5 [.func 1], 6)
    ∧ deepClone (.vmap 0 [(.prim (.str "k"), .func 1)]) 5
        = some (.vmap 5 [(.prim (.str "k"), .func 1)], 6)
    ∧ deepClone (.vmap 0 [(.obj 1 [("f", .func 2)], .prim (.num 3))]) 5
        = some (.vmap 5 [(.obj 1 [("f", .func 2)], .prim (.num 3))], 6) :=
  ⟨rfl, rfl, rfl, rfl, rfl⟩

/-- C7 amended: deepClone fails with the type error exactly when its
traversal reaches a plain-record field holding a callable function — the
traversal descending through records, lists, sets and map values, but not
map keys, which are copied by reference uninspected.  In particular a
function that is the top-level value, a list or set element, or a map
value, and any record hidden inside a map-key subtree, never trigger the
error (see the counterexample), while a function-valued field of a record
nested at any reachable depth always does. -/
theorem deepClone_type_error_iff_reachable_record_field_function
    (v : Value) (n : Nat) :
    deepClone v n = none ↔ hasFuncFieldV v = true :=
  deepCloneNoneIffV v n

theorem funcFree_typeofFunction {v : Value} (hf : funcFreeV v = true) :
    typeofFunction v = false := by
  cases v <;> try rfl
  simp [funcFreeV] at hf

theorem nonObject_props (v : Value) (hf : funcFreeV v = true)
    (ho : typeofObject v = false) :
    mutIds v = [] ∧ keyIdsV v = [] ∧ nullFreeV v = true := by
  cases v
  case prim p => cases p <;> first | exact ⟨rfl, rfl, rfl⟩ | simp [typeofObject] at ho
  case func i => simp [funcFreeV] at hf
  all_goals simp [typeofObject] at ho

mutual
/-- Soundness of deepClone on function-free graphs: it succeeds, the ids
of the result are either freshly allocated in the interval of consumed
counter values or inherited from map-key subtrees of the input, key
subtrees are kept intact, the result stays function-free, and on
null-free graphs the erased structure is preserved. -/
theorem deepCloneSound : ∀ (v : Value) (n : Nat), funcFreeV v = true →
    ∃ v1 n1, deepClone v n = some (v1, n1) ∧ n ≤ n1
      ∧ funcFreeV v1 = true
      ∧ (∀ i ∈ mutIds v1, (n ≤ i ∧ i < n1) ∨ i ∈ keyIdsV v)
      ∧ keyIdsV v1 = keyIdsV v
      ∧ (nullFreeV v = true → nullFreeV v1 = true ∧ eraseIds v1 = eraseIds v)
  | .prim p, n => by
      intro _
      cases p with
      | null =>
          refine ⟨.obj n [], n + 1, rfl, Nat.le_succ n, rfl, ?_, rfl, ?_⟩
          · intro i hi
            simp only [mutIds, mutIdsFields, List.mem_singleton] at hi
            subst hi
            exact Or.inl (by omega)
          · intro hnull; exact absurd hnull (by simp [nullFreeV])
      | undef =>
          exact ⟨.prim .undef, n, rfl, Nat.le_refl n, rfl, by simp [mutIds], rfl,
            fun _ => ⟨rfl, rfl⟩⟩
      | bool b =>
          exact ⟨.prim (.bool b), n, rfl, Nat.le_refl n, rfl, by simp [mutIds], rfl,
            fun _ => ⟨rfl, rfl⟩⟩
      | num m =>
          exact ⟨.prim (.num m), n, rfl, Nat.le_refl n, rfl, by simp [mutIds], rfl,
            fun _ => ⟨rfl, rfl⟩⟩
      | str s =>
          exact ⟨.prim (.str s), n, rfl, Nat.le_refl n, rfl, by simp [mutIds], rfl,
            fun _ => ⟨rfl, rfl⟩⟩
  | .func i, n => by intro hf; simp [funcFreeV] at hf
  | .date id t, n => by
      intro _
      refine ⟨.date n t, n + 1, rfl, Nat.le_succ n, rfl, ?_, rfl, fun _ => ⟨rfl, rfl⟩⟩
      intro i hi
      simp only [mutIds, List.mem_singleton] at hi
      subst hi
      exact Or.inl (by omega)
  | .regexp id s f, n => by
      intro _
      refine ⟨.regexp n s f, n + 1, rfl, Nat.le_succ n, rfl, ?_, rfl, fun _ => ⟨rfl, rfl⟩⟩
      intro i hi
      simp only [mutIds, List.mem_singleton] at hi
      subst hi
      exact Or.inl (by omega)
  | .arr id items, n => by
      intro hf
      obtain ⟨its, n1, hc, hle, hff, hids, hkeys, herase⟩ :=
        deepCloneItemsSound items (n + 1) hf
      refine ⟨.arr n its, n1, ?_, Nat.le_of_succ_le hle, hff, ?_, hkeys, ?_⟩
      · simp [deepClone, hc]
      · intro i hi
        simp only [mutIds, List.mem_cons] at hi
        rcases hi with rfl | hi
        · exact Or.inl (by omega)
        · rcases hids i hi with ⟨h1, h2⟩ | hk
          · exact Or.inl ⟨Nat.le_of_succ_le h1, h2⟩
          · exact Or.inr hk
      · intro hnull
        obtain ⟨hn1, he⟩ := herase hnull
        exact ⟨hn1, by simp [eraseIds, he]⟩
  | .set id items, n => by
      intro hf
      obtain ⟨its, n1, hc, hle, hff, hids, hkeys, herase⟩ :=
        deepCloneItemsSound items (n + 1) hf
      refine ⟨.set n its, n1, ?_, Nat.le_of_succ_le hle, hff, ?_, hkeys, ?_⟩
      · simp [deepClone, hc]
      · intro i hi
        simp only [mutIds, List.mem_cons] at hi
        rcases hi with rfl | hi
        · exact Or.inl (by omega)
        · rcases hids i hi with ⟨h1, h2⟩ | hk
          · exact Or.inl ⟨Nat.le_of_succ_le h1, h2⟩
          · exact Or.inr hk
      · intro hnull
        obtain ⟨hn1, he⟩ := herase hnull
        exact ⟨hn1, by simp [eraseIds, he]⟩
  | .vmap id es, n => by
      intro hf
      obtain ⟨es1, n1, hc, hle, hff, hids, hkeys, herase⟩ :=
        deepCloneEntriesSound es (n + 1) hf
      refine ⟨.vmap n es1, n1, ?_, Nat.le_of_succ_le hle, hff, ?_, hkeys, ?_⟩
      · simp [deepClone, hc]
      · intro i hi
        simp only [mutIds, List.mem_cons] at hi
        rcases hi with rfl | hi
        · exact Or.inl (by omega)
        · rcases hids i hi with ⟨h1, h2⟩ | hk
          · exact Or.inl ⟨Nat.le_of_succ_le h1, h2⟩
          · exact Or.inr hk
      · intro hnull
        obtain ⟨hn1, he⟩ := herase hnull
        exact ⟨hn1, by simp [eraseIds, he]⟩
  | .obj id fs, n => by
      intro hf
      obtain ⟨fs1, n1, hc, hle, hff, hids, hkeys, herase⟩ :=
        deepCloneFieldsSound fs (n + 1) hf
      refine ⟨.obj n fs1, n1, ?_, Nat.le_of_succ_le hle, hff, ?_, hkeys, ?_⟩
      · simp [deepClone, hc]
      · intro i hi
        simp only [mutIds, List.mem_cons] at hi
        rcases hi with rfl | hi
        · exact Or.inl (by omega)
        · rcases hids i hi with ⟨h1, h2⟩ | hk
          · exact Or.inl ⟨Nat.le_of_succ_le h1, h2⟩
          · exact Or.inr hk
      · intro hnull
        obtain ⟨hn1, he⟩ := herase hnull
        exact ⟨hn1, by simp [eraseIds, he]⟩

theorem deepCloneItemsSound : ∀ (vs : List Value) (n : Nat), funcFreeList vs = true →
    ∃ vs1 n1, deepCloneItems vs n = some (vs1, n1) ∧ n ≤ n1
      ∧ funcFreeList vs1 = true
      ∧ (∀ i ∈ mutIdsList vs1, (n ≤ i ∧ i < n1) ∨ i ∈ keyIdsList vs)
      ∧ keyIdsList vs1 = keyIdsList vs
      ∧ (nullFreeList vs = true → nullFreeList vs1 = true ∧ eraseList vs1 = eraseList vs)
  | [], n => by
      intro _
      exact ⟨[], n, rfl, Nat.le_refl n, rfl, by simp [mutIdsList], rfl, fun _ => ⟨rfl, rfl⟩⟩
  | v :: vs, n => by
      intro hf
      have hf2 : funcFreeV v = true ∧ funcFreeList vs = true := by
        simpa [funcFreeList, Bool.and_eq_true] using hf
      by_cases hobj : typeofObject v = true
      · obtain ⟨v1, m, hc1, hle1, hfv1, hids1, hkeys1, herase1⟩ := deepCloneSound v n hf2.1
        obtain ⟨vs1, n1, hc2, hle2, hfvs1, hids2, hkeys2, herase2⟩ :=
          deepCloneItemsSound vs m hf2.2
        refine ⟨v1 :: vs1, n1, ?_, Nat.le_trans hle1 hle2, ?_, ?_, ?_, ?_⟩
        · simp [deepCloneItems, hobj, hc1, hc2]
        · simp [funcFreeList, hfv1, hfvs1]
        · intro i hi
          simp only [mutIdsList, List.mem_append] at hi
          rcases hi with hi | hi
          · rcases hids1 i hi with ⟨h1, h2⟩ | hk
            · exact Or.inl ⟨h1, Nat.lt_of_lt_of_le h2 hle2⟩
            · exact Or.inr (by simp [keyIdsList, hk])
          · rcases hids2 i hi with ⟨h1, h2⟩ | hk
            · exact Or.inl ⟨Nat.le_trans hle1 h1, h2⟩
            · exact Or.inr (by simp [keyIdsList, hk])
        · simp [keyIdsList, hkeys1, hkeys2]
        · intro hnull
          have hn2 : nullFreeV v = true ∧ nullFreeList vs = true := by
            simpa [nullFreeList, Bool.and_eq_true] using hnull
          obtain ⟨ha1, ha2⟩ := herase1 hn2.1
          obtain ⟨hb1, hb2⟩ := herase2 hn2.2
          exact ⟨by simp [nullFreeList, ha1, hb1], by simp [eraseList, ha2, hb2]⟩
      · have hno : typeofObject v = false := by simpa using hobj
        obtain ⟨hm, hk0, hn0⟩ := nonObject_props v hf2.1 hno
        obtain ⟨vs1, n1, hc2, hle2, hfvs1, hids2, hkeys2, herase2⟩ :=
          deepCloneItemsSound vs n hf2.2
        refine ⟨v :: vs1, n1, ?_, hle2, ?_, ?_, ?_, ?_⟩
        · simp [deepCloneItems, hno, hc2]
        · simp [funcFreeList, hf2.1, hfvs1]
        · intro i hi
          simp only [mutIdsList, hm, List.nil_append] at hi
          rcases hids2 i hi with ⟨h1, h2⟩ | hk
          · exact Or.inl ⟨h1, h2⟩
          · exact Or.inr (by simp [keyIdsList, hk])
        · simp [keyIdsList, hkeys2]
        · intro hnull
          have hn2 : nullFreeV v = true ∧ nullFreeList vs = true := by
            simpa [nullFreeList, Bool.and_eq_true] using hnull
          obtain ⟨hb1, hb2⟩ := herase2 hn2.2
          exact ⟨by simp [nullFreeList, hn2.1, hb1], by simp [eraseList, hb2]⟩

theorem deepCloneEntriesSound :
    ∀ (es : List (Value × Value)) (n : Nat), funcFreeEntries es = true →
    ∃ es1 n1, deepCloneEntries es n = some (es1, n1) ∧ n ≤ n1
      ∧ funcFreeEntries es1 = true
      ∧ (∀ i ∈ mutIdsEntries es1, (n ≤ i ∧ i < n1) ∨ i ∈ keyIdsEntries es)
      ∧ keyIdsEntries es1 = keyIdsEntries es
      ∧ (nullFreeEntries es = true →
          nullFreeEntries es1 = true ∧ eraseEntries es1 = eraseEntries es)
  | [], n => by
      intro _
      exact ⟨[], n, rfl, Nat.le_refl n, rfl, by simp [mutIdsEntries], rfl,
        fun _ => ⟨rfl, rfl⟩⟩
  | (k, v) :: es, n => by
      intro hf
      have hf3 : funcFreeV k = true ∧ funcFreeV v = true ∧ funcFreeEntries es = true := by
        simpa [funcFreeEntries, Bool.and_eq_true] using hf
      by_cases hobj : typeofObject v = true
      · obtain ⟨v1, m, hc1, hle1, hfv1, hids1, hkeys1, herase1⟩ :=
          deepCloneSound v n hf3.2.1
        obtain ⟨es1, n1, hc2, hle2, hfes1, hids2, hkeys2, herase2⟩ :=
          deepCloneEntriesSound es m hf3.2.2
        refine ⟨(k, v1) :: es1, n1, ?_, Nat.le_trans hle1 hle2, ?_, ?_, ?_, ?_⟩
        · simp [deepCloneEntries, hobj, hc1, hc2]
        · simp [funcFreeEntries, hf3.1, hfv1, hfes1]
        · intro i hi
          simp only [mutIdsEntries, List.mem_append] at hi
          rcases hi with (hi | hi) | hi
          · exact Or.inr (by simp [keyIdsEntries, hi])
          · rcases hids1 i hi with ⟨h1, h2⟩ | hk
            · exact Or.inl ⟨h1, Nat.lt_of_lt_of_le h2 hle2⟩
            · exact Or.inr (by simp [keyIdsEntries, hk])
          · rcases hids2 i hi with ⟨h1, h2⟩ | hk
            · exact Or.inl ⟨Nat.le_trans hle1 h1, h2⟩
            · exact Or.inr (by simp [keyIdsEntries, hk])
        · simp [keyIdsEntries, hkeys1, hkeys2]
        · intro hnull
          have hn3 : nullFreeV k = true ∧ nullFreeV v = true ∧ nullFreeEntries es = true := by
            simpa [nullFreeEntries, Bool.and_eq_true] using hnull
          obtain ⟨ha1, ha2⟩ := herase1 hn3.2.1
          obtain ⟨hb1, hb2⟩ := herase2 hn3.2.2
          exact ⟨by simp [nullFreeEntries, hn3.1, ha1, hb1],
            by simp [eraseEntries, ha2, hb2]⟩
      · have hno : typeofObject v = false := by simpa using hobj
        obtain ⟨hm, hk0, hn0⟩ := nonObject_props v hf3.2.1 hno
        obtain ⟨es1, n1, hc2, hle2, hfes1, hids2, hkeys2, herase2⟩ :=
          deepCloneEntriesSound es n hf3.2.2
        refine ⟨(k, v) :: es1, n1, ?_, hle2, ?_, ?_, ?_, ?_⟩
        · simp [deepCloneEntries, hno, hc2]
        · simp [funcFreeEntries, hf3.1, hf3.2.1, hfes1]
        · intro i hi
          simp only [mutIdsEntries, hm, List.append_nil, List.mem_append] at hi
          rcases hi with hi | hi
          · exact Or.inr (by simp [keyIdsEntries, hi])
          · rcases hids2 i hi with ⟨h1, h2⟩ | hk
            · exact Or.inl ⟨h1, h2⟩
            · exact Or.inr (by simp [keyIdsEntries, hk])
        · simp [keyIdsEntries, hk0, hkeys2]
        · intro hnull
          have hn3 : nullFreeV k = true ∧ nullFreeV v = true ∧ nullFreeEntries es = true := by
            simpa [nullFreeEntries, Bool.and_eq_true] using hnull
          obtain ⟨hb1, hb2⟩ := herase2 hn3.2.2
          exact ⟨by simp [nullFreeEntries, hn3.1, hn3.2.1, hb1],
            by simp [eraseEntries, hb2]⟩

theorem deepCloneFieldsSound :
    ∀ (fs : List (String × Value)) (n : Nat), funcFreeFields fs = true →
    ∃ fs1 n1, deepCloneFields fs n = some (fs1, n1) ∧ n ≤ n1
      ∧ funcFreeFields fs1 = true
      ∧ (∀ i ∈ mutIdsFields fs1, (n ≤ i ∧ i < n1) ∨ i ∈ keyIdsFields fs)
      ∧ keyIdsFields fs1 = keyIdsFields fs
      ∧ (nullFreeFields fs = true →
          nullFreeFields fs1 = true ∧ eraseFields fs1 = eraseFields fs)
  | [], n => by
      intro _
      exact ⟨[], n, rfl, Nat.le_refl n, rfl, by simp [mutIdsFields], rfl,
        fun _ => ⟨rfl, rfl⟩⟩
  | (k, v) :: fs, n => by
      intro hf
      have hf2 : funcFreeV v = true ∧ funcFreeFields fs = true := by
        simpa [funcFreeFields, Bool.and_eq_true] using hf
      have hnf : typeofFunction v = false := funcFree_typeofFunction hf2.1
      by_cases hobj : typeofObject v = true
      · obtain ⟨v1, m, hc1, hle1, hfv1, hids1, hkeys1, herase1⟩ := deepCloneSound v n hf2.1
        obtain ⟨fs1, n1, hc2, hle2, hffs1, hids2, hkeys2, herase2⟩ :=
          deepCloneFieldsSound fs m hf2.2
        refine ⟨(k, v1) :: fs1, n1, ?_, Nat.le_trans hle1 hle2, ?_, ?_, ?_, ?_⟩
        · simp [deepCloneFields, hnf, hobj, hc1, hc2]
        · simp [funcFreeFields, hfv1, hffs1]
        · intro i hi
          simp only [mutIdsFields, List.mem_append] at hi
          rcases hi with hi | hi
          · rcases hids1 i hi with ⟨h1, h2⟩ | hk
            · exact Or.inl ⟨h1, Nat.lt_of_lt_of_le h2 hle2⟩
            · exact Or.inr (by simp [keyIdsFields, hk])
          · rcases hids2 i hi with ⟨h1, h2⟩ | hk
            · exact Or.inl ⟨Nat.le_trans hle1 h1, h2⟩
            · exact Or.inr (by simp [keyIdsFields, hk])
        · simp [keyIdsFields, hkeys1, hkeys2]
        · intro hnull
          have hn2 : nullFreeV v = true ∧ nullFreeFields fs = true := by
            simpa [nullFreeFields, Bool.and_eq_true] using hnull
          obtain ⟨ha1, ha2⟩ := herase1 hn2.1
          obtain ⟨hb1, hb2⟩ := herase2 hn2.2
          exact ⟨by simp [nullFreeFields, ha1, hb1], by simp [eraseFields, ha2, hb2]⟩
      · have hno : typeofObject v = false := by simpa using hobj
        obtain ⟨hm, hk0, hn0⟩ := nonObject_props v hf2.1 hno
        obtain ⟨fs1, n1, hc2, hle2, hffs1, hids2, hkeys2, herase2⟩ :=
          deepCloneFieldsSound fs n hf2.2
        refine ⟨(k, v) :: fs1, n1, ?_, hle2, ?_, ?_, ?_, ?_⟩
        · simp [deepCloneFields, hnf, hno, hc2]
        · simp [funcFreeFields, hf2.1, hffs1]
        · intro i hi
          simp only [mutIdsFields, hm, List.nil_append] at hi
          rcases hids2 i hi with ⟨h1, h2⟩ | hk
          · exact Or.inl ⟨h1, h2⟩
          · exact Or.inr (by simp [keyIdsFields, hk])
        · simp [keyIdsFields, hkeys2]
        · intro hnull
          have hn2 : nullFreeV v = true ∧ nullFreeFields fs = true := by
            simpa [nullFreeFields, Bool.and_eq_true] using hnull
          obtain ⟨hb1, hb2⟩ := herase2 hn2.2
          exact ⟨by simp [nullFreeFields, hn2.1, hb1], by simp [eraseFields, hb2]⟩
end

mutual
theorem keyIds_sub_mutIds : ∀ (v : Value), ∀ i ∈ keyIdsV v, i ∈ mutIds v
  | .prim p => by simp [keyIdsV]
  | .func j => by simp [keyIdsV]
  | .date id t => by simp [keyIdsV]
  | .regexp id s f => by simp [keyIdsV]
  | .arr id items => by
      intro i hi
      simp only [mutIds, List.mem_cons]
      exact Or.inr (keyIds_sub_mutIdsList items i hi)
  | .set id items => by
      intro i hi
      simp only [mutIds, List.mem_cons]
      exact Or.inr (keyIds_sub_mutIdsList items i hi)
  | .vmap id es => by
      intro i hi
      simp only [mutIds, List.mem_cons]
      exact Or.inr (keyIds_sub_mutIdsEntries es i hi)
  | .obj id fs => by
      intro i hi
      simp only [mutIds, List.mem_cons]
      exact Or.inr (keyIds_sub_mutIdsFields fs i hi)

theorem keyIds_sub_mutIdsList : ∀ (vs : List Value), ∀ i ∈ keyIdsList vs, i ∈ mutIdsList vs
  | [] => by simp [keyIdsList]
  | v :: vs => by
      intro i hi
      simp only [keyIdsList, List.mem_append] at hi
      simp only [mutIdsList, List.mem_append]
      rcases hi with hi | hi
      · exact Or.inl (keyIds_sub_mutIds v i hi)
      · exact Or.inr (keyIds_sub_mutIdsList vs i hi)

theorem keyIds_sub_mutIdsEntries :
    ∀ (es : List (Value × Value)), ∀ i ∈ keyIdsEntries es, i ∈ mutIdsEntries es
  | [] => by simp [keyIdsEntries]
  | (k, v) :: es => by
      intro i hi
      simp only [keyIdsEntries, List.mem_append] at hi
      simp only [mutIdsEntries, List.mem_append]
      rcases hi with (hi | hi) | hi
      · exact Or.inl (Or.inl hi)
      · exact Or.inl (Or.inr (keyIds_sub_mutIds v i hi))
      · exact Or.inr (keyIds_sub_mutIdsEntries es i hi)

theorem keyIds_sub_mutIdsFields :
    ∀ (fs : List (String × Value)), ∀ i ∈ keyIdsFields fs, i ∈ mutIdsFields fs
  | [] => by simp [keyIdsFields]
  | (k, v) :: fs => by
      intro i hi
      simp only [keyIdsFields, List.mem_append] at hi
      simp only [mutIdsFields, List.mem_append]
      rcases hi with hi | hi
      · exact Or.inl (keyIds_sub_mutIds v i hi)
      · exact Or.inr (keyIds_sub_mutIdsFields fs i hi)
end

/-- C6 counterexample: cloning a map with a mutable record key returns a
map containing the very same key object (id 0 occurs in both the input
and the clone), so the clone shares a mutable nested container with its
input; and a `null` inside a list — or on its own — is cloned to a fresh
empty record, so the result is not structurally equal to the input.  Both
break the claim as stated. -/
theorem deepClone_map_key_shared_and_null_mangled :
    deepClone (.vmap 1 [(.obj 0 [], .prim (.num 5))]) 10
      = some (.vmap 10 [(.obj 0 [], .prim (.num 5))], 11)
    ∧ (0 : Nat) ∈ mutIds (Value.vmap 1 [(.obj 0 [], .prim (.num 5))])
    ∧ (0 : Nat) ∈ mutIds (Value.vmap 10 [(.obj 0 [], .prim (.num 5))])
    ∧ deepClone (.prim .null) 3 = some (.obj 3 [], 4)
    ∧ eraseIds (Value.obj 3 []) ≠ eraseIds (Value.prim Prim.null) :=
  ⟨rfl, by decide, by decide, rfl, fun h => Value.noConfusion h⟩

/-- C6 amended: for every function-free value whose container ids lie
below the clone counter, deepClone succeeds; the result is structurally
equal to the input provided the input is also null-free (a reachable
`null` is mangled into an empty record instead); any mutable container
shared between input and clone sits inside a map-key subtree (map keys
are copied by reference, everything else is freshly allocated); and every
non-null scalar is returned as-is, identity included. -/
theorem deepClone_roundtrip_except_map_keys (v : Value) (n : Nat)
    (hf : funcFreeV v = true)
    (hb : (mutIds v).all (fun i => decide (i < n)) = true) :
    (deepClone v n).isSome = true
    ∧ (∀ v1 n1, deepClone v n = some (v1, n1) →
        (nullFreeV v = true → eraseIds v1 = eraseIds v)
        ∧ (∀ i, i ∈ mutIds v1 → i ∈ mutIds v → i ∈ keyIdsV v))
    ∧ (∀ p, p ≠ Prim.null → deepClone (.prim p) n = some (.prim p, n)) := by
  have hb1 : ∀ i ∈ mutIds v, i < n := by simpa using hb
  obtain ⟨v1, n1, hc, _, _, hids, _, herase⟩ := deepCloneSound v n hf
  refine ⟨by simp [hc], ?_, ?_⟩
  · intro w m hw
    rw [hc] at hw
    obtain ⟨hw1, hw2⟩ : v1 = w ∧ n1 = m := by
      simpa [Prod.ext_iff] using hw
    subst hw1
    refine ⟨fun h => (herase h).2, ?_⟩
    intro i h1 h2
    rcases hids i h1 with ⟨hge, _⟩ | hk
    · exact absurd (hb1 i h2) (Nat.not_lt.mpr hge)
    · exact hk
  · intro p hp
    cases p <;> first | rfl | exact absurd rfl hp

/-- Witness for the amended C6 at a concrete nested value containing a
list, a date and a map with a record key: the clone succeeds, preserves
the erased structure, and the only shared id (3, the map key) is a key
id. -/
theorem deepClone_roundtrip_except_map_keys_witness :
    funcFreeV (.obj 0 [("xs", .arr 1 [.prim (.num 2), .date 4 7]),
        ("m", .vmap 2 [(.obj 3 [], .prim (.str "v"))])]) = true
    ∧ (mutIds (.obj 0 [("xs", .arr 1 [.prim (.num 2), .date 4 7]),
        ("m", .vmap 2 [(.obj 3 [], .prim (.str "v"))])])).all
          (fun i => decide (i < 10)) = true
    ∧ (deepClone (.obj 0 [("xs", .arr 1 [.prim (.num 2), .date 4 7]),
        ("m", .vmap 2 [(.obj 3 [], .prim (.str "v"))])]) 10).isSome = true
    ∧ eraseIds (.obj 10 [("xs", .arr 11 [.prim (.num 2), .date 12 7]),
        ("m", .vmap 13 [(.obj 3 [], .prim (.str "v"))])])
      = eraseIds (.obj 0 [("xs", .arr 1 [.prim (.num 2), .date 4 7]),
        ("m", .vmap 2 [(.obj 3 [], .prim (.str "v"))])])
    ∧ (3 : Nat) ∈ keyIdsV (.obj 0 [("xs", .arr 1 [.prim (.num 2), .date 4 7]),
        ("m", .vmap 2 [(.obj 3 [], .prim (.str "v"))])]) :=
  ⟨rfl, by decide,
   (deepClone_roundtrip_except_map_keys
      (.obj 0 [("xs", .arr 1 [.prim (.num 2), .date 4 7]),
        ("m", .vmap 2 [(.obj 3 [], .prim (.str "v"))])]) 10 rfl (by decide)).1,
   (((deepClone_roundtrip_except_map_keys
        (.obj 0 [("xs", .arr 1 [.prim (.num 2), .date 4 7]),
          ("m", .vmap 2 [(.obj 3 [], .prim (.str "v"))])]) 10 rfl (by decide)).2.1
      (.obj 10 [("xs", .arr 11 [.prim (.num 2), .date 12 7]),
        ("m", .vmap 13 [(.obj 3 [], .prim (.str "v"))])]) 14 rfl).1 rfl),
   (((deepClone_roundtrip_except_map_keys
        (.obj 0 [("xs", .arr 1 [.prim (.num 2), .date 4 7]),
          ("m", .vmap 2 [(.obj 3 [], .prim (.str "v"))])]) 10 rfl (by decide)).2.1
      (.obj 10 [("xs", .arr 11 [.prim (.num 2), .date 12 7]),
        ("m", .vmap 13 [(.obj 3 [], .prim (.str "v"))])]) 14 rfl).2 3
      (by decide) (by decide))⟩

/-- A concrete functional builder with nested working data and an
installed validator, used to refute the clone claim. -/
def cexFnBuilder : FnBuilderState :=
  { recId := 0
    dto := [("xs", Value.arr 7 [Value.prim (Prim.num 1)])]
    validator := some fun _ => DtoValidatorOutput.valid
    transformer := none }

/-- C4 counterexample: the functional builder's `clone()` keeps the very
same bindings — the nested array object (id 7) is shared between the
original and the clone, so part of the working data is shared by
reference — and the clone carries no validator although the original has
one installed. -/
theorem fn_clone_shares_nested_and_drops_validator :
    (fnClone cexFnBuilder 9).dto = cexFnBuilder.dto
    ∧ (7 : Nat) ∈ mutIdsFields (fnClone cexFnBuilder 9).dto
    ∧ (7 : Nat) ∈ mutIdsFields cexFnBuilder.dto
    ∧ (fnClone cexFnBuilder 9).validator = none
    ∧ cexFnBuilder.validator ≠ none :=
  ⟨rfl, by decide, by decide, rfl, fun h => Option.noConfusion h⟩

/-- C4 amended: the class-based builder's `clone()` does satisfy the
claim up to map keys — it succeeds on function-free working data, carries
the same validator and transformer references, preserves the erased
structure of null-free working data, and shares no mutable container with
the original except ids inside map-key subtrees; the functional builder's
`clone()`, by contrast, only allocates a fresh top-level record, keeps
every nested value by reference, and drops both hooks. -/
theorem class_clone_deep_and_carries_hooks (st : ClassBuilderState) (n : Nat)
    (hf : funcFreeV st.dto = true)
    (hb : (mutIds st.dto).all (fun i => decide (i < n)) = true) :
    (classClone st n).isSome = true
    ∧ (∀ c m, classClone st n = some (c, m) →
        c.validator = st.validator ∧ c.transformer = st.transformer
        ∧ (nullFreeV st.dto = true → eraseIds c.dto = eraseIds st.dto)
        ∧ (∀ i, i ∈ mutIds c.dto → i ∈ mutIds st.dto → i ∈ keyIdsV st.dto))
    ∧ (∀ (fb : FnBuilderState) (fid : Nat),
        (fnClone fb fid).dto = fb.dto ∧ (fnClone fb fid).recId = fid
        ∧ (fnClone fb fid).validator = none ∧ (fnClone fb fid).transformer = none) := by
  have hball : ∀ i ∈ mutIds st.dto, i < n := by simpa using hb
  obtain ⟨c1, n1, hc1, hle1, hff1, hids1, hkeys1, herase1⟩ := deepCloneSound st.dto n hf
  obtain ⟨c2, n2x, hc2, hle2, hff2, hids2, hkeys2, herase2⟩ := deepCloneSound c1 n1 hff1
  have hcc : classClone st n = some (({ initData := c1
                                        dto := c2
                                        validator := st.validator
                                        transformer := st.transformer } : ClassBuilderState), n2x) := by
    simp [classClone, hc1, hc2]
  refine ⟨by simp [hcc], ?_, fun fb fid => ⟨rfl, rfl, rfl, rfl⟩⟩
  intro c m hcm
  rw [hcc] at hcm
  obtain ⟨hceq, hmeq⟩ : ({ initData := c1
                           dto := c2
                           validator := st.validator
                           transformer := st.transformer } : ClassBuilderState) = c ∧ n2x = m := by
    simpa [Prod.ext_iff] using hcm
  subst hceq
  refine ⟨rfl, rfl, ?_, ?_⟩
  · intro hnull
    obtain ⟨ha1, ha2⟩ := herase1 hnull
    obtain ⟨hb1, hb2⟩ := herase2 ha1
    exact hb2.trans ha2
  · intro i h1 h2
    rcases hids2 i h1 with ⟨hge, _⟩ | hk
    · exact absurd (Nat.lt_of_lt_of_le (hball i h2) hle1) (Nat.not_lt.mpr hge)
    · rw [hkeys1] at hk
      exact hk

/-- A concrete class builder used by the C4 witness. -/
def c4Original : ClassBuilderState :=
  { initData := .prim .undef
    dto := .obj 0 [("xs", .arr 1 [.prim (.num 2)])]
    validator := some fun _ => DtoValidatorOutput.valid
    transformer := none }

/-- The builder `classClone c4Original 5` produces. -/
def c4CloneResult : ClassBuilderState :=
  { initData := .obj 5 [("xs", .arr 6 [.prim (.num 2)])]
    dto := .obj 7 [("xs", .arr 8 [.prim (.num 2)])]
    validator := some fun _ => DtoValidatorOutput.valid
    transformer := none }

/-- Witness for the amended C4: the class clone of a concrete builder
succeeds, re-allocates every container (fresh ids 7 and 8), and carries
the validator and transformer references over. -/
theorem class_clone_deep_and_carries_hooks_witness :
    funcFreeV c4Original.dto = true
    ∧ (mutIds c4Original.dto).all (fun i => decide (i < 5)) = true
    ∧ (classClone c4Original 5).isSome = true
    ∧ classClone c4Original 5 = some (c4CloneResult, 9)
    ∧ c4CloneResult.validator = c4Original.validator
    ∧ c4CloneResult.transformer = c4Original.transformer :=
  ⟨rfl, by decide,
   (class_clone_deep_and_carries_hooks c4Original 5 rfl (by decide)).1,
   rfl,
   ((class_clone_deep_and_carries_hooks c4Original 5 rfl (by decide)).2.1
      c4CloneResult 9 rfl).1,
   ((class_clone_deep_and_carries_hooks c4Original 5 rfl (by decide)).2.1
      c4CloneResult 9 rfl).2.1⟩

/-- C5 counterexample: the functional factory stores the caller's record
itself — same object id, same bindings — and `patch` then rewrites that
same object (id 0 keeps being the record's id while it gains the patched
field), so the record the caller passed in is mutated by a builder
operation, contradicting deep-clone-on-intake. -/
theorem createBuilder_aliases_caller_record :
    (fnCreateBuilder 0 [("a", Value.prim (Prim.num 1))]).dto
        = [("a", Value.prim (Prim.num 1))]
    ∧ (fnCreateBuilder 0 [("a", Value.prim (Prim.num 1))]).recId = 0
    ∧ (fnPatch (fnCreateBuilder 0 [("a", Value.prim (Prim.num 1))])
        [("b", Value.prim (Prim.num 2))]).recId = 0
    ∧ (fnPatch (fnCreateBuilder 0 [("a", Value.prim (Prim.num 1))])
        [("b", Value.prim (Prim.num 2))]).dto
      = [("a", Value.prim (Prim.num 1)), ("b", Value.prim (Prim.num 2))] :=
  ⟨rfl, rfl, rfl, rfl⟩

/-- C5 amended: the functional factory aliases the caller's record
outright (same object, same bindings, so set/patch/add mutate the
caller's record); the class-based constructor deep-clones the record into
the working data — sharing no mutable container with it beyond map-key
subtrees, and structurally equal for null-free records — but keeps the
caller's record itself, by reference, as the initial-data snapshot used
by reset. -/
theorem factory_intake_alias_and_class_deep_clone :
    (∀ (id : Nat) (fields : List (String × Value)),
      (fnCreateBuilder id fields).recId = id ∧ (fnCreateBuilder id fields).dto = fields)
    ∧ (∀ (rec : Value) (n : Nat), funcFreeV rec = true →
        (mutIds rec).all (fun i => decide (i < n)) = true →
        (classConstructor rec n).isSome = true
        ∧ ∀ st m, classConstructor rec n = some (st, m) →
            st.initData = rec
            ∧ (∀ i, i ∈ mutIds st.dto → i ∈ mutIds rec → i ∈ keyIdsV rec)
            ∧ (nullFreeV rec = true → eraseIds st.dto = eraseIds rec)) := by
  refine ⟨fun id fields => ⟨rfl, rfl⟩, ?_⟩
  intro rec n hf hb
  have hball : ∀ i ∈ mutIds rec, i < n := by simpa using hb
  obtain ⟨c, n1, hc, _, _, hids, _, herase⟩ := deepCloneSound rec n hf
  have hcc : classConstructor rec n = some (({ initData := rec
                                               dto := c
                                               validator := none
                                               transformer := none } : ClassBuilderState), n1) := by
    simp [classConstructor, hc]
  refine ⟨by simp [hcc], ?_⟩
  intro st m hst
  rw [hcc] at hst
  obtain ⟨h1, h2⟩ : ({ initData := rec
                       dto := c
                       validator := none
                       transformer := none } : ClassBuilderState) = st ∧ n1 = m := by
    simpa [Prod.ext_iff] using hst
  subst h1
  refine ⟨rfl, ?_, fun h => (herase h).2⟩
  intro i hi1 hi2
  rcases hids i hi1 with ⟨hge, _⟩ | hk
  · exact absurd (hball i hi2) (Nat.not_lt.mpr hge)
  · exact hk

/-- Witness for the amended C5: the functional factory hands back the
caller's record as working data, while the class constructor at a
concrete record produces a deep-cloned working data whose initData
snapshot is the caller's record itself. -/
theorem factory_intake_alias_and_class_deep_clone_witness :
    (fnCreateBuilder 3 [("a", Value.prim (Prim.num 1))]).dto
        = [("a", Value.prim (Prim.num 1))]
    ∧ funcFreeV (Value.obj 0 [("a", .arr 1 [.prim (.num 1)])]) = true
    ∧ (mutIds (Value.obj 0 [("a", .arr 1 [.prim (.num 1)])])).all
        (fun i => decide (i < 7)) = true
    ∧ (classConstructor (.obj 0 [("a", .arr 1 [.prim (.num 1)])]) 7).isSome = true
    ∧ classConstructor (.obj 0 [("a", .arr 1 [.prim (.num 1)])]) 7
        = some ({ initData := .obj 0 [("a", .arr 1 [.prim (.num 1)])],
                  dto := .obj 7 [("a", .arr 8 [.prim (.num 1)])],
                  validator := none, transformer := none }, 9)
    ∧ ({ initData := .obj 0 [("a", .arr 1 [.prim (.num 1)])],
         dto := .obj 7 [("a", .arr 8 [.prim (.num 1)])],
         validator := none, transformer := none } : ClassBuilderState).initData
        = .obj 0 [("a", .arr 1 [.prim (.num 1)])] :=
  ⟨(factory_intake_alias_and_class_deep_clone.1 3 [("a", Value.prim (Prim.num 1))]).2,
   rfl, by decide,
   (factory_intake_alias_and_class_deep_clone.2
      (.obj 0 [("a", .arr 1 [.prim (.num 1)])]) 7 rfl (by decide)).1,
   rfl,
   ((factory_intake_alias_and_class_deep_clone.2
      (.obj 0 [("a", .arr 1 [.prim (.num 1)])]) 7 rfl (by decide)).2
      { initData := .obj 0 [("a", .arr 1 [.prim (.num 1)])],
        dto := .obj 7 [("a", .arr 8 [.prim (.num 1)])],
        validator := none, transformer := none } 9 rfl).1⟩
